import Mathlib

/-!
Verification of the adaptive-metrics aggregation service core.

This file gives a shallow embedding, in Lean 4, of the parts of the
marcotuna/adaptive-metrics Go repository that the checked properties talk
about: the rule matcher (internal/rules), the aggregation processor
(internal/aggregator), the usage tracker (internal/metrics/usage_tracker.go),
the recommendation engine (internal/metrics) and the recommendation apply /
reject handlers (internal/api/recommendations.go).

Modelling conventions:
* Go `float64` values are modelled as exact rationals (`ℚ`); the properties
  checked here concern which arithmetic is performed, not rounding.
* Go `time.Time` instants and durations are modelled as integer milliseconds.
* Go maps are modelled as association lists that carry one concrete iteration
  order; iterating a Go map enumerates exactly the entries of the list.
* Go's `regexp` package (RE2) is modelled by a small derivative-based engine
  over the fragment actually exercised here (literals, `.`, postfix `*`,
  simple character classes, `^` / `$` anchors); strings outside the fragment
  fail to compile.  `regexp.MustCompile`'s panic on a compilation failure is
  modelled by propagating `Option.none`.
* The matcher's compiled-regex cache is pure memoisation of a deterministic
  compiler, so it is dropped from the embedding.
-/

/-! ## Regular expressions (model of the RE2 fragment used by the matcher) -/

inductive RE : Type where
  | fail : RE
  | eps : RE
  | chr : Char → RE
  | anyc : RE
  | allc : RE
  | cls : List Char → RE
  | cat : RE → RE → RE
  | alt : RE → RE → RE
  | star : RE → RE
deriving DecidableEq

def RE.nullable : RE → Bool
  | .fail => false
  | .eps => true
  | .chr _ => false
  | .anyc => false
  | .allc => false
  | .cls _ => false
  | .cat a b => a.nullable && b.nullable
  | .alt a b => a.nullable || b.nullable
  | .star _ => true

def RE.deriv : RE → Char → RE
  | .fail, _ => .fail
  | .eps, _ => .fail
  | .chr c, d => if c = d then .eps else .fail
  | .anyc, d => if d = '\n' then .fail else .eps
  | .allc, _ => .eps
  | .cls cs, d => if cs.contains d then .eps else .fail
  | .cat a b, d =>
      if a.nullable then .alt (.cat (a.deriv d) b) (b.deriv d)
      else .cat (a.deriv d) b
  | .alt a b, d => .alt (a.deriv d) (b.deriv d)
  | .star a, d => .cat (a.deriv d) (.star a)

/-- Whether regular expression `r` matches the whole string `s`. -/
def RE.matchesFull (r : RE) (s : String) : Bool :=
  (s.toList.foldl RE.deriv r).nullable

/-- One parsing step over the pattern body (anchors already stripped).
`fuel` bounds the recursion; every call consumes at least one input
character, so `input.length + 1` fuel always suffices. -/
def parseREAux (fuel : Nat) (cs : List Char) (acc : List RE) : Option (List RE) :=
  match fuel with
  | 0 => none
  | fuel + 1 =>
    match cs with
    | [] => some acc.reverse
    | '*' :: rest =>
      match acc with
      | [] => none
      | RE.star _ :: _ => none
      | a :: as => parseREAux fuel rest (RE.star a :: as)
    | '.' :: rest => parseREAux fuel rest (RE.anyc :: acc)
    | '[' :: rest =>
      let members := rest.takeWhile (fun c => c ≠ ']')
      let rest2 := rest.dropWhile (fun c => c ≠ ']')
      match rest2 with
      | [] => none
      | _ :: rest3 =>
        if members.isEmpty || members.contains '-' || members.contains '^'
            || members.contains '\\' then none
        else parseREAux fuel rest3 (RE.cls members :: acc)
    | c :: rest =>
      if c ∈ (['^', '$', '(', ')', '|', '+', '?', '\\'] : List Char) then none
      else parseREAux fuel rest (RE.chr c :: acc)

def catList (rs : List RE) : RE := rs.foldr RE.cat RE.eps

/-- Model of `regexp.Compile` on the RE2 fragment used by the repository:
`none` is a compilation error (on which `regexp.MustCompile` panics).
An unanchored pattern is padded with `allc*` so that `matchesFull` gives
Go's substring-search `MatchString` semantics. -/
def compile (s : String) : Option RE :=
  let cs := s.toList
  let sa := match cs with
    | '^' :: _ => true
    | _ => false
  let cs1 := match cs with
    | '^' :: rest => rest
    | _ => cs
  let ea := cs1.getLast? = some '$'
  let cs2 := if cs1.getLast? = some '$' then cs1.dropLast else cs1
  match parseREAux (cs2.length + 1) cs2 [] with
  | none => none
  | some atoms =>
    let core := catList atoms
    let pre := if sa then core else RE.cat (RE.star RE.allc) core
    some (if ea then pre else RE.cat pre (RE.star RE.allc))

/-- `MatchString`: unanchored matching (the padding was added by `compile`). -/
def rmatch (r : RE) (s : String) : Bool := r.matchesFull s

/-- `strings.ReplaceAll(pattern, "*", ".*")` on the character list. -/
def globChars : List Char → List Char
  | [] => []
  | '*' :: rest => '.' :: '*' :: globChars rest
  | c :: rest => c :: globChars rest

/-- The regex string `"^" + strings.ReplaceAll(p, "*", ".*") + "$"` built by
`Matcher.matchesRule` for a glob metric-name pattern. -/
def globToRegex (p : String) : String :=
  String.mk ('^' :: (globChars p.toList ++ ['$']))

/-! ## Data model (internal/models) -/

/-- A Go `map[string]string` together with its iteration order. -/
abbrev Labels := List (String × String)

structure MetricSample where
  name : String
  value : ℚ
  timestamp : Int
  labels : Labels
deriving DecidableEq

structure MetricMatcher where
  metricNames : List String
  labels : Labels
  labelRegex : List (String × String)
deriving DecidableEq

structure AggregationConfig where
  type : String
  intervalSeconds : Int
  segmentation : List String
  delayMs : Int
deriving DecidableEq

structure OutputConfig where
  metricName : String
  additionalLabels : Labels
  dropOriginal : Bool
deriving DecidableEq

/-- `models.Rule` restricted to the fields the checked properties read
(description, timestamps, confidence and Kubernetes output are carried
around by the Go struct but never consulted by the code under proof). -/
structure Rule where
  id : String
  enabled : Bool
  matcher : MetricMatcher
  aggregation : AggregationConfig
  output : OutputConfig
  recommendationID : String
deriving DecidableEq

structure AggregatedMetric where
  name : String
  value : ℚ
  startTime : Int
  endTime : Int
  labels : Labels
  sourceRule : String
  count : Nat
deriving DecidableEq

structure EstimatedImpact where
  cardinalityReduction : ℚ
  savingsPercentage : ℚ
  affectedSeries : Int
  retentionPeriod : String
deriving DecidableEq

structure Recommendation where
  id : String
  rule : Rule
  confidence : ℚ
  source : String
  status : String
deriving DecidableEq

/-! ## Association-list operations standing in for Go map operations -/

/-- Go map assignment `m[k] = v` (overwrite or append). -/
def setL (k : String) (v : α) : List (String × α) → List (String × α)
  | [] => [(k, v)]
  | (k2, v2) :: rest => if k2 = k then (k, v) :: rest else (k2, v2) :: setL k v rest

/-- Go map read with zero-value default, `m[k]`. -/
def lookupD (k : String) (l : List (String × α)) (d : α) : α :=
  match l.lookup k with
  | some v => v
  | none => d

/-! ## Rule matcher (internal/rules, `Matcher`) -/

/-- The metric-name loop of `Matcher.matchesRule`.  `none` models the panic
of `regexp.MustCompile` on a malformed glob-derived pattern. -/
def nameMatched : List String → String → Option Bool
  | [], _ => some false
  | p :: ps, name =>
    if p = name ∨ p = "*" then some true
    else if p.toList.contains '*' then
      match compile (globToRegex p) with
      | none => none
      | some re => if rmatch re name then some true else nameMatched ps name
    else nameMatched ps name

/-- The exact-label loop of `Matcher.matchesRule`. -/
def labelsMatch (req : Labels) (ls : Labels) : Bool :=
  req.all fun kv => ls.lookup kv.1 == some kv.2

/-- The label-regex loop of `Matcher.matchesRule`; the existence check runs
before the compile, and `none` models the `MustCompile` panic. -/
def labelRegexMatch : List (String × String) → Labels → Option Bool
  | [], _ => some true
  | (k, reStr) :: rest, ls =>
    match ls.lookup k with
    | none => some false
    | some v =>
      match compile reStr with
      | none => none
      | some re => if rmatch re v then labelRegexMatch rest ls else some false

/-- `Matcher.matchesRule`. -/
def matchesRule (s : MetricSample) (r : Rule) : Option Bool :=
  match nameMatched r.matcher.metricNames s.name with
  | none => none
  | some false => some false
  | some true =>
    if labelsMatch r.matcher.labels s.labels then
      labelRegexMatch r.matcher.labelRegex s.labels
    else some false

/-- `Matcher.MatchingRules`: filters the engine's rules (given in iteration
order) down to the enabled, matching ones; a panic anywhere aborts the call. -/
def MatchingRules : List Rule → MetricSample → Option (List Rule)
  | [], _ => some []
  | r :: rest, s =>
    if r.enabled then
      match matchesRule s r with
      | none => none
      | some true => (MatchingRules rest s).map (fun l => r :: l)
      | some false => MatchingRules rest s
    else MatchingRules rest s

/-! ## Aggregation processor (internal/aggregator, `Processor`) -/

/-- `aggregationBucket` (times in milliseconds). -/
structure AggregationBucket where
  rule : Rule
  metrics : List (String × List MetricSample)
  startTime : Int
  endTime : Int
deriving DecidableEq

/-- The processor's bucket map, keyed by `fmt.Sprintf("%s-%d", rule.ID,
rule.Aggregation.IntervalSeconds)`, with iteration order. -/
abbrev BucketMap := List (String × AggregationBucket)

/-- The slice of `config.AggregatorConfig` that `aggregateBuckets` reads. -/
structure AggregatorConfig where
  aggregationDelayMs : Int
deriving DecidableEq

/-- `Processor.generateSegmentKey`: Go formats the `[]string` of
`label=value` parts with `fmt.Sprintf("%s", keyParts)`, which renders as
`[p1 p2 ...]`; an empty segmentation yields the sentinel `"_all_"`. -/
def generateSegmentKey (sample : MetricSample) (segmentBy : List String) : String :=
  if segmentBy = [] then "_all_"
  else
    let keyParts := segmentBy.map fun label =>
      match sample.labels.lookup label with
      | some value => label ++ "=" ++ value
      | none => label ++ "="
    "[" ++ String.intercalate " " keyParts ++ "]"

/-- Append a sample to `bucket.metrics[segmentKey]` (Go `append` on a
possibly-nil slice under a map key). -/
def appendSeg (k : String) (s : MetricSample) :
    List (String × List MetricSample) → List (String × List MetricSample)
  | [] => [(k, [s])]
  | (k2, l) :: rest =>
    if k2 = k then (k2, l ++ [s]) :: rest else (k2, l) :: appendSeg k s rest

/-- The per-matched-rule body of `Processor.processSample`: bucket-key and
boundary computation, bucket lookup (replacing an expired bucket), and the
segment append.  `now` is the wall-clock instant of processing. -/
def processSampleRule (r : Rule) (now : Int) (buckets : BucketMap)
    (sample : MetricSample) : BucketMap :=
  let bucketKey := r.id ++ "-" ++ toString r.aggregation.intervalSeconds
  let interval := r.aggregation.intervalSeconds * 1000
  let bucketStart := (now / interval) * interval
  let bucketEnd := bucketStart + interval
  let bucket : AggregationBucket :=
    match buckets.lookup bucketKey with
    | some b =>
      if b.endTime < now then
        { rule := r, metrics := [], startTime := bucketStart, endTime := bucketEnd }
      else b
    | none => { rule := r, metrics := [], startTime := bucketStart, endTime := bucketEnd }
  let segmentKey := generateSegmentKey sample r.aggregation.segmentation
  setL bucketKey { bucket with metrics := appendSeg segmentKey sample bucket.metrics } buckets

/-- `Processor.processSample`: match, then fold the bucket update over the
matched rules; `none` propagates a matcher panic. -/
def processSample (rules : List Rule) (now : Int) (buckets : BucketMap)
    (sample : MetricSample) : Option BucketMap :=
  match MatchingRules rules sample with
  | none => none
  | some matched =>
    some (matched.foldl (fun bks r => processSampleRule r now bks sample) buckets)

/-- `Processor.aggregateSamples`: reduce a segment to one value by the
rule's operator; unknown operators fall through to the sum branch. -/
def aggregateSamples (samples : List MetricSample) (aggType : String) : ℚ :=
  match samples with
  | [] => 0
  | s0 :: _ =>
    if aggType = "sum" then samples.foldl (fun acc s => acc + s.value) 0
    else if aggType = "avg" then
      (samples.foldl (fun acc s => acc + s.value) 0) / (samples.length : ℚ)
    else if aggType = "min" then
      samples.foldl (fun m s => if s.value < m then s.value else m) s0.value
    else if aggType = "max" then
      samples.foldl (fun m s => if s.value > m then s.value else m) s0.value
    else if aggType = "count" then (samples.length : ℚ)
    else samples.foldl (fun acc s => acc + s.value) 0

/-- `Processor.parseSegmentKey`: the sentinel branch returns an empty map,
and the non-sentinel branch is an unimplemented placeholder that also
returns an empty map. -/
def parseSegmentKey (segmentKey : String) : Labels :=
  if segmentKey = "_all_" then [] else []

/-- The emissions produced for one flushed bucket: one aggregated metric per
non-empty segment, labels rebuilt by `parseSegmentKey` with the rule's
additional labels assigned on top. -/
def emitBucket (b : AggregationBucket) : List AggregatedMetric :=
  (b.metrics.filter fun seg => ¬seg.2.isEmpty).map fun seg =>
    let aggValue := aggregateSamples seg.2 b.rule.aggregation.type
    let labels := b.rule.output.additionalLabels.foldl
      (fun m kv => setL kv.1 kv.2 m) (parseSegmentKey seg.1)
    { name := b.rule.output.metricName
      value := aggValue
      startTime := b.startTime
      endTime := b.endTime
      labels := labels
      sourceRule := b.rule.id
      count := seg.2.length }

/-- `Processor.aggregateBuckets` (one flusher tick at instant `now`):
emits and deletes every bucket past `endTime + cfg.AggregationDelayMs`,
returning the emissions and the retained bucket map. -/
def aggregateBuckets (cfg : AggregatorConfig) (now : Int) :
    BucketMap → List AggregatedMetric × BucketMap
  | [] => ([], [])
  | (k, b) :: rest =>
    let (ems, kept) := aggregateBuckets cfg now rest
    if now < b.endTime + cfg.aggregationDelayMs then (ems, (k, b) :: kept)
    else (emitBucket b ++ ems, kept)

/-! ## Usage tracker (internal/metrics/usage_tracker.go) -/

/-- `hashLabels`: concatenates `k + ":" + v + ";"` in the map's iteration
order, with no sorting. -/
def hashLabels (labels : Labels) : String :=
  labels.foldl (fun result kv => result ++ kv.1 ++ ":" ++ kv.2 ++ ";") ""

/-- The tracker's `min` helper on float64. -/
def minFloat (a b : ℚ) : ℚ := if a < b then a else b

/-- The tracker's `max` helper on float64. -/
def maxFloat (a b : ℚ) : ℚ := if a > b then a else b

structure MetricUsageInfo where
  metricName : String
  labels : Labels
  sampleCount : Int
  firstSeen : Int
  lastSeen : Int
  cardinality : Int
  labelCardinality : List (String × Int)
  minValue : ℚ
  maxValue : ℚ
  sumValue : ℚ
deriving DecidableEq

structure UsageTracker where
  metricsUsage : List (String × MetricUsageInfo)
  detailedUsage : List (String × List (String × MetricUsageInfo))
  retentionPeriod : Int
  lastCleanup : Int
deriving DecidableEq

def NewUsageTracker (retentionPeriod now : Int) : UsageTracker :=
  { metricsUsage := [], detailedUsage := [], retentionPeriod := retentionPeriod
    lastCleanup := now }

/-- `UsageTracker.cleanup` at instant `now`: summaries stale past the
retention window are dropped with their detail maps; otherwise stale
details are dropped and the owning summary's cardinality decremented
(the summary's `labelCardinality` is left untouched, as in the source). -/
def cleanup (ut : UsageTracker) (now : Int) : UsageTracker :=
  let cutoff := now - ut.retentionPeriod
  let step := fun (acc : List (String × MetricUsageInfo) ×
      List (String × List (String × MetricUsageInfo))) (p : String × MetricUsageInfo) =>
    if p.2.lastSeen < cutoff then acc
    else
      let dets := lookupD p.1 ut.detailedUsage []
      let kept := dets.filter fun d => ¬(d.2.lastSeen < cutoff)
      let removed := dets.filter fun d => d.2.lastSeen < cutoff
      (acc.1 ++ [(p.1, { p.2 with cardinality := p.2.cardinality - removed.length })],
       acc.2 ++ [(p.1, kept)])
  let (mu, du) := ut.metricsUsage.foldl step ([], [])
  { ut with metricsUsage := mu, detailedUsage := du, lastCleanup := now }

/-- `UsageTracker.TrackMetric` at instant `now`: summary upsert, detail
upsert keyed by `hashLabels`, cardinality and label-cardinality updates on a
new combination, and the periodic cleanup trigger. -/
def TrackMetric (ut : UsageTracker) (name : String) (labels : Labels)
    (value : ℚ) (now : Int) : UsageTracker :=
  let freshSummary : MetricUsageInfo :=
    { metricName := name, labels := [], sampleCount := 0, firstSeen := now
      lastSeen := now, cardinality := 0, labelCardinality := []
      minValue := value, maxValue := value, sumValue := 0 }
  let info0 := lookupD name ut.metricsUsage freshSummary
  let info1 := { info0 with
    sampleCount := info0.sampleCount + 1
    lastSeen := now
    minValue := minFloat info0.minValue value
    maxValue := maxFloat info0.maxValue value
    sumValue := info0.sumValue + value }
  let labelHash := hashLabels labels
  let det0 := lookupD name ut.detailedUsage []
  let isNewCombo := (det0.lookup labelHash).isNone
  let freshDetail : MetricUsageInfo :=
    { metricName := name, labels := labels, sampleCount := 0, firstSeen := now
      lastSeen := now, cardinality := 0, labelCardinality := []
      minValue := value, maxValue := value, sumValue := 0 }
  let det1 := if isNewCombo then setL labelHash freshDetail det0 else det0
  let info2 :=
    if isNewCombo then
      let withCard := { info1 with cardinality := info1.cardinality + 1 }
      labels.foldl (fun inf kv =>
        let lcInit :=
          if (inf.labelCardinality.lookup kv.1).isNone then
            setL kv.1 0 inf.labelCardinality
          else inf.labelCardinality
        let isNewValue := ¬ det1.any fun p =>
          p.1 ≠ labelHash ∧ lookupD kv.1 p.2.labels "" = kv.2
        let lcFinal :=
          if isNewValue then setL kv.1 (lookupD kv.1 lcInit 0 + 1) lcInit
          else lcInit
        { inf with labelCardinality := lcFinal }) withCard
    else info1
  let d0 := lookupD labelHash det1 freshDetail
  let d1 := { d0 with
    sampleCount := d0.sampleCount + 1
    lastSeen := now
    minValue := minFloat d0.minValue value
    maxValue := maxFloat d0.maxValue value
    sumValue := d0.sumValue + value }
  let det2 := setL labelHash d1 det1
  let ut1 := { ut with
    metricsUsage := setL name info2 ut.metricsUsage
    detailedUsage := setL name det2 ut.detailedUsage }
  if now - ut.lastCleanup > ut.retentionPeriod / 10 then cleanup ut1 now else ut1

/-! ## Recommendation engine (internal/metrics, `RecommendationEngine`) -/

structure RecommendationEngine where
  minSampleThreshold : Int
  minCardinalityThreshold : Int
  minConfidence : ℚ
deriving DecidableEq

/-- `RecommendationEngine.determineSegmentationLabels`: sort the label
cardinalities ascending (Go's unspecified-on-ties `sort.Slice` is modelled
by insertion sort), keep labels with `2 ≤ c` and `c ≤ 0.2·cardinality`
(the float literal `0.2` is modelled as the exact rational `1/5`), stop
after three. -/
def determineSegmentationLabels (info : MetricUsageInfo) : List String :=
  let sorted := info.labelCardinality.insertionSort fun a b => a.2 ≤ b.2
  sorted.foldl (fun acc p =>
    if acc.length ≥ 3 then acc
    else if (p.2 : ℚ) > (info.cardinality : ℚ) * (1 / 5) then acc
    else if p.2 < 2 then acc
    else acc ++ [p.1]) []

/-- `RecommendationEngine.determineAggregationType`. -/
def determineAggregationType (info : MetricUsageInfo) : String :=
  if info.minValue ≥ 0 ∧ info.sumValue ≥ 0 then "sum" else "avg"

/-- `RecommendationEngine.determineAggregationInterval` (static default). -/
def determineAggregationInterval (_ : MetricUsageInfo) : Int := 60

/-- `RecommendationEngine.estimateImpact`. -/
def estimateImpact (info : MetricUsageInfo) (segmentationLabels : List String) :
    EstimatedImpact :=
  let post0 := segmentationLabels.foldl (fun acc label =>
    match info.labelCardinality.lookup label with
    | some cardinality => acc * cardinality
    | none => acc) 1
  let post := if post0 = 0 then 1 else post0
  let cardinalityReduction := (info.cardinality : ℚ) / (post : ℚ)
  { cardinalityReduction := cardinalityReduction
    savingsPercentage := (1 - 1 / cardinalityReduction) * 100
    affectedSeries := info.cardinality
    retentionPeriod := "30d" }

/-- `RecommendationEngine.calculateConfidence` (float weights modelled as
exact rationals). -/
def calculateConfidence (info : MetricUsageInfo) (impact : EstimatedImpact) : ℚ :=
  let sampleScore := minFloat ((info.sampleCount : ℚ) / 10000) 1
  let cardinalityScore := minFloat ((info.cardinality : ℚ) / 1000) 1
  let impactScore := minFloat (impact.cardinalityReduction / 100) 1
  sampleScore * (3 / 10) + cardinalityScore * (4 / 10) + impactScore * (3 / 10)

/-- `RecommendationEngine.generateRecommendationForMetric`.  The random
UUIDs of the generated rule and recommendation are passed in as `ruleId`
and `recId`; timestamps are not consulted by any property and are dropped. -/
def generateRecommendationForMetric (re : RecommendationEngine)
    (info : MetricUsageInfo) (ruleId recId : String) : Option Recommendation :=
  let segmentationLabels := determineSegmentationLabels info
  if segmentationLabels = [] then none
  else
    let aggregationType := determineAggregationType info
    let estimatedImpact := estimateImpact info segmentationLabels
    if estimatedImpact.cardinalityReduction < 2 then none
    else
      let confidence := calculateConfidence info estimatedImpact
      if confidence < re.minConfidence then none
      else
        some
          { id := recId
            rule :=
              { id := ruleId
                enabled := false
                matcher := { metricNames := [info.metricName], labels := []
                             labelRegex := [] }
                aggregation := { type := aggregationType
                                 intervalSeconds := determineAggregationInterval info
                                 segmentation := segmentationLabels
                                 delayMs := 5000 }
                output := { metricName := info.metricName ++ "_aggregated"
                            additionalLabels :=
                              [("aggregated_by", "adaptive_metrics"),
                               ("source", "usage_based_recommendation")]
                            dropOriginal := false }
                recommendationID := "" }
            confidence := confidence
            source := "usage_analysis"
            status := "pending" }

/-! ## Recommendation store and handlers (internal/api/recommendations.go) -/

/-- The store's `map[string]models.Recommendation` with iteration order. -/
abbrev RecommendationStore := List (String × Recommendation)

/-- `RecommendationHandler.ApplyRecommendation` for a known id: set the
status to `"applied"` unconditionally, then add the contained rule (enabled,
with the recommendation back-pointer) to the rule store.  An unknown id
leaves both stores untouched (404 path). -/
def ApplyRecommendation (store : RecommendationStore) (rules : List Rule)
    (id : String) : RecommendationStore × List Rule :=
  match store.lookup id with
  | none => (store, rules)
  | some recommendation =>
    let store' := setL id { recommendation with status := "applied" } store
    let rule := { recommendation.rule with
      recommendationID := recommendation.id, enabled := true }
    (store', rules ++ [rule])

/-- `RecommendationHandler.RejectRecommendation` for a known id: set the
status to `"rejected"` unconditionally. -/
def RejectRecommendation (store : RecommendationStore) (id : String) :
    RecommendationStore :=
  match store.lookup id with
  | none => store
  | some recommendation => setL id { recommendation with status := "rejected" } store

/-! ## Spec-side predicates (transcribed from the specification's wording,
to be compared against the code embeddings above) -/

/-- Name-pattern match exactly as the specification states it: the literal
`*` matches anything, a pattern without `*` matches by string equality, and
a pattern containing `*` matches iff the anchored `*`→`.*` regex matches. -/
def claimPatternMatches (p name : String) : Bool :=
  if p = "*" then true
  else if p.toList.contains '*' then
    match compile (globToRegex p) with
    | some re => rmatch re name
    | none => false
  else p = name

/-- Name-pattern match as amended to the code's behaviour: a pattern
containing `*` also matches when it is exactly equal to the name (the
matcher checks string equality before falling back to the glob regex). -/
def amendedPatternMatches (p name : String) : Bool :=
  if p = "*" then true
  else if p.toList.contains '*' then
    p = name ||
      match compile (globToRegex p) with
      | some re => rmatch re name
      | none => false
  else p = name

/-- Spec clause (2): every matcher label is present with exactly that value. -/
def specLabelClause (req : Labels) (ls : Labels) : Bool :=
  req.all fun kv => ls.lookup kv.1 == some kv.2

/-- Spec clause (3): every label-regex key is present and its regex matches
the sample's value. -/
def specLabelRegexClause (req : List (String × String)) (ls : Labels) : Bool :=
  req.all fun kv =>
    match ls.lookup kv.1, compile kv.2 with
    | some v, some re => rmatch re v
    | _, _ => false

/-- All regexes a rule can make the matcher compile do compile: its glob
metric-name patterns and its label regexes. -/
def ruleCompileOk (r : Rule) : Prop :=
  (∀ p ∈ r.matcher.metricNames,
    p.toList.contains '*' = true → (compile (globToRegex p)).isSome = true) ∧
  (∀ kv ∈ r.matcher.labelRegex, (compile kv.2).isSome = true)

instance (r : Rule) : Decidable (ruleCompileOk r) := by
  unfold ruleCompileOk; infer_instance

/-! ## Concrete instances used by the individual properties -/

/-- C1 scenario rule: sum over 60-second intervals, no segmentation. -/
def c1rule : Rule :=
  { id := "r1", enabled := true
    matcher := { metricNames := ["m"], labels := [], labelRegex := [] }
    aggregation := { type := "sum", intervalSeconds := 60, segmentation := []
                     delayMs := 5000 }
    output := { metricName := "m_agg", additionalLabels := [], dropOriginal := false }
    recommendationID := "" }

/-- C1 scenario: run `processSample` once per arrival instant (milliseconds),
each carrying one sample of value 1. -/
def c1run (times : List Int) : Option BucketMap :=
  times.foldlM
    (fun buckets t =>
      processSample [c1rule] t buckets
        { name := "m", value := 1, timestamp := t, labels := [] })
    []

/-- C1 scenario arrivals: nine on-time samples inside `[0s, 60s)` and one
late sample at `t = 62s`, inside the 5-second drain window of the first
interval. -/
def c1times : List Int :=
  [0, 7000, 14000, 21000, 28000, 35000, 42000, 49000, 56000, 62000]

/-- C2 rule: segmentation on `method`, an additional output label. -/
def c2rule : Rule :=
  { id := "r2", enabled := true
    matcher := { metricNames := ["http_requests_total"], labels := [], labelRegex := [] }
    aggregation := { type := "min", intervalSeconds := 60
                     segmentation := ["method"], delayMs := 0 }
    output := { metricName := "http_agg", additionalLabels := [("team", "core")]
                dropOriginal := false }
    recommendationID := "" }

def c2sample : MetricSample :=
  { name := "http_requests_total", value := 3, timestamp := 1000
    labels := [("method", "GET"), ("status", "200")] }

/-- C3 witness rule: glob name, one exact label, one label regex. -/
def c3rule : Rule :=
  { id := "r3", enabled := true
    matcher := { metricNames := ["http_*"], labels := [("method", "GET")]
                 labelRegex := [("path", "^/api/.*")] }
    aggregation := { type := "sum", intervalSeconds := 60, segmentation := []
                     delayMs := 0 }
    output := { metricName := "out", additionalLabels := [], dropOriginal := false }
    recommendationID := "" }

def c3sample : MetricSample :=
  { name := "http_requests_total", value := 1, timestamp := 0
    labels := [("method", "GET"), ("path", "/api/v1/users")] }

/-- C3 counterexample rule: the single metric-name pattern contains `*`,
is equal to the sample's name, and its glob-derived regex `^[.*]z$`
(a two-character match) does not match the four-character name. -/
def c3xrule : Rule :=
  { id := "rx", enabled := true
    matcher := { metricNames := ["[*]z"], labels := [], labelRegex := [] }
    aggregation := { type := "sum", intervalSeconds := 60, segmentation := []
                     delayMs := 0 }
    output := { metricName := "out", additionalLabels := [], dropOriginal := false }
    recommendationID := "" }

def c3xsample : MetricSample :=
  { name := "[*]z", value := 1, timestamp := 0, labels := [] }

/-- C4 witness samples. -/
def c4samples : List MetricSample :=
  [{ name := "m", value := 3, timestamp := 0, labels := [] },
   { name := "m", value := 5, timestamp := 0, labels := [] },
   { name := "m", value := 2, timestamp := 0, labels := [] }]

/-- C5 counterexample, bucket of a rule asking for no delay
(`aggregation.delay_ms = 0`). -/
def c5ruleA : Rule :=
  { id := "rA", enabled := true
    matcher := { metricNames := ["a"], labels := [], labelRegex := [] }
    aggregation := { type := "min", intervalSeconds := 60, segmentation := []
                     delayMs := 0 }
    output := { metricName := "a_agg", additionalLabels := [], dropOriginal := false }
    recommendationID := "" }

/-- C5 counterexample, bucket of a rule asking for a 10-second delay. -/
def c5ruleB : Rule :=
  { id := "rB", enabled := true
    matcher := { metricNames := ["b"], labels := [], labelRegex := [] }
    aggregation := { type := "min", intervalSeconds := 60, segmentation := []
                     delayMs := 10000 }
    output := { metricName := "b_agg", additionalLabels := [], dropOriginal := false }
    recommendationID := "" }

def c5bucketA : AggregationBucket :=
  { rule := c5ruleA
    metrics := [("_all_", [{ name := "a", value := 1, timestamp := 0, labels := [] }])]
    startTime := 0, endTime := 60000 }

def c5bucketB : AggregationBucket :=
  { rule := c5ruleB
    metrics := [("_all_", [{ name := "b", value := 2, timestamp := 0, labels := [] }])]
    startTime := 0, endTime := 60000 }

/-- The processor configuration used in the C5 counterexample: a global
5-second aggregation delay. -/
def c5cfg : AggregatorConfig := { aggregationDelayMs := 5000 }

/-- C6 rule whose label regex `"["` does not compile (Go:
`missing closing ]`). -/
def c6rule : Rule :=
  { id := "r6", enabled := true
    matcher := { metricNames := ["m"], labels := [], labelRegex := [("path", "[")] }
    aggregation := { type := "sum", intervalSeconds := 60, segmentation := []
                     delayMs := 0 }
    output := { metricName := "out", additionalLabels := [], dropOriginal := false }
    recommendationID := "" }

def c6sample : MetricSample :=
  { name := "m", value := 1, timestamp := 0, labels := [("path", "/x")] }

/-- C6 second rule: the glob pattern `"ab[*"` yields the malformed regex
`^ab[.*$` when `*` is replaced by `.*`. -/
def c6rule2 : Rule :=
  { id := "r6b", enabled := true
    matcher := { metricNames := ["ab[*"], labels := [], labelRegex := [] }
    aggregation := { type := "sum", intervalSeconds := 60, segmentation := []
                     delayMs := 0 }
    output := { metricName := "out", additionalLabels := [], dropOriginal := false }
    recommendationID := "" }

def c6sample2 : MetricSample :=
  { name := "zzz", value := 1, timestamp := 0, labels := [] }

/-- C8 scenario: retention 100 time units; two combinations of label `k`
tracked 200 units apart, so the second call triggers a cleanup that expires
the first detail record. -/
def c8tracker : UsageTracker :=
  TrackMetric
    (TrackMetric (NewUsageTracker 100 0) "m" [("k", "a")] 0 0)
    "m" [("k", "b")] 0 200

/-- C9 stored recommendation, freshly generated (status `pending`). -/
def c9rec : Recommendation :=
  { id := "R", rule := c1rule, confidence := 1, source := "usage_analysis"
    status := "pending" }

def c9store : RecommendationStore := [("R", c9rec)]

/-- C9 witness usage summary: passes every generation gate (two moderate
cardinality labels, cardinality 100, 20000 samples). -/
def c9info : MetricUsageInfo :=
  { metricName := "mm", labels := [], sampleCount := 20000, firstSeen := 0
    lastSeen := 0, cardinality := 100
    labelCardinality := [("a", 3), ("b", 4)]
    minValue := 0, maxValue := 5, sumValue := 100 }

def c9engine : RecommendationEngine :=
  { minSampleThreshold := 1000, minCardinalityThreshold := 10
    minConfidence := 1 / 10 }

/-- C10: a single-entry label map whose value embeds the separator
characters of `hashLabels`. -/
def c10labels1 : Labels := [("a", "b;c:d")]

/-- C10: a two-entry label map with different contents from `c10labels1`. -/
def c10labels2 : Labels := [("a", "b"), ("c", "d")]

def c10tracker : UsageTracker :=
  TrackMetric
    (TrackMetric (NewUsageTracker 1000000 0) "m" c10labels1 1 0)
    "m" c10labels2 1 1

/-- `Matcher.matchesRule` as a total boolean predicate, valid when every
regex the rule makes the matcher compile does compile. -/
def matchesRuleBool (s : MetricSample) (r : Rule) : Bool :=
  (r.matcher.metricNames.any fun p => amendedPatternMatches p s.name)
    && specLabelClause r.matcher.labels s.labels
    && specLabelRegexClause r.matcher.labelRegex s.labels

/-- C1: the bucket map left behind by the ten arrivals of `c1times` — a
fresh second-interval bucket holding only the late sample; the nine
accumulated first-interval samples are gone. -/
def c1expected : BucketMap :=
  [("r1-60",
    { rule := c1rule
      metrics := [("_all_",
        [{ name := "m", value := 1, timestamp := 62000, labels := [] }])]
      startTime := 60000, endTime := 120000 })]

/-- C2: the bucket map after one matched sample with segmentation
`["method"]`. -/
def c2buckets : BucketMap :=
  [("r2-60",
    { rule := c2rule
      metrics := [("[method=GET]", [c2sample])]
      startTime := 0, endTime := 60000 })]

/-- C2: the aggregated metric the flush actually emits — only the rule's
additional labels survive; the segment's `method` label is absent. -/
def c2emit : AggregatedMetric :=
  { name := "http_agg", value := 3, startTime := 0, endTime := 60000
    labels := [("team", "core")], sourceRule := "r2", count := 1 }

/-- C5: the metric emitted for `c5bucketB` at `now = 66s` although the
rule's own `delay_ms` (10 s) has not yet elapsed. -/
def c5emitB : AggregatedMetric :=
  { name := "b_agg", value := 2, startTime := 0, endTime := 60000
    labels := [], sourceRule := "rB", count := 1 }

/-- C9: the recommendation generated from `c9info` (confidence
`0.3·1 + 0.4·0.1 + 0.3·(100/12)/100 = 73/200`), with status `pending`. -/
def c9genRec : Recommendation :=
  { id := "cid"
    rule :=
      { id := "rid", enabled := false
        matcher := { metricNames := ["mm"], labels := [], labelRegex := [] }
        aggregation := { type := "sum", intervalSeconds := 60
                         segmentation := ["a", "b"], delayMs := 5000 }
        output := { metricName := "mm_aggregated"
                    additionalLabels :=
                      [("aggregated_by", "adaptive_metrics"),
                       ("source", "usage_based_recommendation")]
                    dropOriginal := false }
        recommendationID := "" }
    confidence := 73 / 200
    source := "usage_analysis"
    status := "pending" }

/-! ## Helper lemmas -/

theorem lookup_setL_self (k : String) (v : α) (l : List (String × α)) :
    (setL k v l).lookup k = some v := by
  induction l with
  | nil => simp [setL, List.lookup]
  | cons p rest ih =>
    by_cases h : p.1 = k
    · simp [setL, h, List.lookup]
    · have hbeq : (k == p.1) = false := by
        simpa using fun hk => h hk.symm
      simp [setL, h, List.lookup, hbeq, ih]

/-! ## Properties -/

/-- Claim C1 (code bug in `Processor.processSample`): after nine on-time
samples of value 1 have accumulated in the `[0s, 60s)` bucket, a tenth
sample arriving at `t = 62s` — inside the drain window `end ≤ now <
end + delay` — does not join them: the bucket is replaced by a fresh
`[60s, 120s)` bucket holding only the late sample, and the flush tick at
`t = 65s` emits nothing, instead of the single aggregate with value 10 and
sample count 10 that the specification's scenario requires. -/
theorem c1_draining_bucket_replaced :
    ((c1run (c1times.take 9)).bind fun bm =>
        (bm.lookup "r1-60").map fun b => (lookupD "_all_" b.metrics []).length) =
      some 9 ∧
    c1run c1times = some c1expected ∧
    (aggregateBuckets { aggregationDelayMs := 5000 } 65000 c1expected).1 = [] := by
  exact ⟨by decide, by decide, by decide⟩

/-- Claim C2 (code bug in `Processor.parseSegmentKey`): the flushed segment
`[method=GET]` emits a metric whose labels are only the rule's additional
labels; the segmentation label `method` is absent because `parseSegmentKey`
returns an empty map for every non-sentinel segment key. -/
theorem c2_segment_labels_dropped :
    processSample [c2rule] 1000 [] c2sample = some c2buckets ∧
    (aggregateBuckets { aggregationDelayMs := 0 } 61000 c2buckets).1 = [c2emit] ∧
    c2emit.labels.lookup "method" = none := by
  exact ⟨by decide, by decide, by decide⟩

/-- Claim C6 (code bug in `Matcher.matchesRule`): both the label regex `"["`
and the glob-derived pattern `^ab[.*$` fail to compile, and the matcher
reaches `regexp.MustCompile` on them, so matching panics (modelled by
`none`) instead of disqualifying the rule and returning normally. -/
theorem c6_malformed_regex_panics :
    compile "[" = none ∧
    MatchingRules [c6rule] c6sample = none ∧
    compile (globToRegex "ab[*") = none ∧
    MatchingRules [c6rule2] c6sample2 = none := by
  exact ⟨by decide, by decide, by decide, by decide⟩

/-- Claim C7 (code bug in `hashLabels`): the hash concatenates entries in
map iteration order without sorting, so two maps with identical contents
(the same key–value pairs, `Nodup` keys, one a permutation of the other)
hash to `"a:1;b:2;"` and `"b:2;a:1;"` respectively. -/
theorem c7_hash_depends_on_iteration_order :
    ([("a", "1"), ("b", "2")] : Labels).Perm [("b", "2"), ("a", "1")] ∧
    (([("a", "1"), ("b", "2")] : Labels).map Prod.fst).Nodup ∧
    hashLabels [("a", "1"), ("b", "2")] = "a:1;b:2;" ∧
    hashLabels [("b", "2"), ("a", "1")] = "b:2;a:1;" ∧
    hashLabels [("a", "1"), ("b", "2")] ≠ hashLabels [("b", "2"), ("a", "1")] := by
  exact ⟨by decide, by decide, by decide, by decide, by decide⟩

/-- Claim C8 (code bug in `UsageTracker.cleanup`): cleanup decrements the
owning summary's `cardinality` for each expired detail but never touches
`labelCardinality`, so after the `c8tracker` run the summary for `m` has
`labelCardinality["k"] = 2 > cardinality = 1`. -/
theorem c8_cleanup_breaks_label_cardinality_bound :
    ((c8tracker.metricsUsage.lookup "m").map fun i =>
        (i.cardinality, i.labelCardinality.lookup "k")) = some (1, some 2) ∧
    ¬((2 : Int) ≤ 1) := by
  exact ⟨by decide, by decide⟩

/-- Claim C9 counterexample: a recommendation that has been rejected
becomes applied again, because `ApplyRecommendation` overwrites the status
unconditionally. -/
theorem c9_counterexample :
    ((RejectRecommendation c9store "R").lookup "R").map (fun r => r.status) =
      some "rejected" ∧
    (((ApplyRecommendation (RejectRecommendation c9store "R") [] "R").1.lookup
        "R").map fun r => r.status) = some "applied" := by
  exact ⟨by decide, by decide⟩

/-- Claim C10: `hashLabels` collides on `{"a": "b;c:d"}` and
`{"a": "b", "c": "d"}` (both hash to `"a:b;c:d;"`), so tracking the second
map after the first neither adds a detail record nor increments the
summary's cardinality. -/
theorem c10_hash_collision_merges_combinations :
    hashLabels c10labels1 = hashLabels c10labels2 ∧
    c10labels1 ≠ c10labels2 ∧
    ((c10tracker.metricsUsage.lookup "m").map fun i => i.cardinality) = some 1 ∧
    ((c10tracker.detailedUsage.lookup "m").map List.length) = some 1 := by
  exact ⟨by decide, by decide, by decide, by decide⟩

/-- Claim C5 counterexample: with a processor-wide configured delay of 5 s,
the flusher at `now = 66s` emits and deletes the bucket of rule `rB` even
though the rule's own `aggregation.delay_ms` (10 s) has not elapsed, and at
`now = 63s` it keeps the bucket of rule `rA` even though that rule's
`aggregation.delay_ms` (0 ms) elapsed three seconds earlier. -/
theorem c5_counterexample :
    aggregateBuckets c5cfg 66000 [("rB-60", c5bucketB)] = ([c5emitB], []) ∧
    (66000 : Int) < c5bucketB.endTime + c5bucketB.rule.aggregation.delayMs ∧
    aggregateBuckets c5cfg 63000 [("rA-60", c5bucketA)] = ([], [("rA-60", c5bucketA)]) ∧
    c5bucketA.endTime + c5bucketA.rule.aggregation.delayMs ≤ (63000 : Int) := by
  exact ⟨by decide, by decide, by decide, by decide⟩

/-- Claim C5 (amended): a flusher tick at `now` emits and deletes exactly
the buckets with `now ≥ bucket.end + cfg.aggregation_delay_ms`, where the
delay is the processor-wide configured `aggregation_delay_ms`, identical
for every rule; the per-rule `aggregation.delay_ms` plays no part. -/
theorem c5_flush_at_global_delay (cfg : AggregatorConfig) (now : Int)
    (buckets : BucketMap) :
    aggregateBuckets cfg now buckets =
      (((buckets.filter fun kb =>
            !decide (now < kb.2.endTime + cfg.aggregationDelayMs)).map
          fun kb => emitBucket kb.2).flatten,
        buckets.filter fun kb =>
          decide (now < kb.2.endTime + cfg.aggregationDelayMs)) := by
  induction buckets with
  | nil => rfl
  | cons kb rest ih =>
    obtain ⟨k, b⟩ := kb
    simp only [aggregateBuckets, ih, List.filter_cons]
    by_cases h : now < b.endTime + cfg.aggregationDelayMs
    · simp [h]
    · simp [h]

theorem foldl_add_value (l : List MetricSample) (init : ℚ) :
    l.foldl (fun acc s => acc + s.value) init = init + (l.map fun s => s.value).sum := by
  induction l generalizing init with
  | nil => simp
  | cons a t ih => simp [ih, add_assoc]

theorem foldl_min_spec (l : List MetricSample) (m0 : ℚ) :
    (l.foldl (fun m s => if s.value < m then s.value else m) m0 = m0 ∨
      l.foldl (fun m s => if s.value < m then s.value else m) m0 ∈
        l.map fun s => s.value) ∧
    l.foldl (fun m s => if s.value < m then s.value else m) m0 ≤ m0 ∧
    ∀ s ∈ l, l.foldl (fun m s => if s.value < m then s.value else m) m0 ≤ s.value := by
  induction l generalizing m0 with
  | nil => simp
  | cons a t ih =>
    obtain ⟨hmem, hle, hall⟩ := ih (if a.value < m0 then a.value else m0)
    have hm1 : (if a.value < m0 then a.value else m0) ≤ m0 := by
      by_cases hc : a.value < m0 <;> simp [hc, le_of_lt, le_refl]
    have hm1a : (if a.value < m0 then a.value else m0) ≤ a.value := by
      by_cases hc : a.value < m0 <;> simp [hc, le_refl]
      exact le_of_not_lt hc
    refine ⟨?_, ?_, ?_⟩
    · rcases hmem with h | h
      · rw [List.foldl_cons, h]
        by_cases hc : a.value < m0
        · right; simp [hc]
        · left; simp [hc]
      · right
        rw [List.map_cons]
        exact List.mem_cons_of_mem _ (by rw [List.foldl_cons]; exact h)
    · rw [List.foldl_cons]; exact le_trans hle hm1
    · intro s hs
      rcases List.mem_cons.mp hs with rfl | hs
      · rw [List.foldl_cons]; exact le_trans hle hm1a
      · rw [List.foldl_cons]; exact hall s hs

theorem foldl_max_spec (l : List MetricSample) (m0 : ℚ) :
    (l.foldl (fun m s => if s.value > m then s.value else m) m0 = m0 ∨
      l.foldl (fun m s => if s.value > m then s.value else m) m0 ∈
        l.map fun s => s.value) ∧
    m0 ≤ l.foldl (fun m s => if s.value > m then s.value else m) m0 ∧
    ∀ s ∈ l, s.value ≤ l.foldl (fun m s => if s.value > m then s.value else m) m0 := by
  induction l generalizing m0 with
  | nil => simp
  | cons a t ih =>
    obtain ⟨hmem, hle, hall⟩ := ih (if a.value > m0 then a.value else m0)
    have hm1 : m0 ≤ (if a.value > m0 then a.value else m0) := by
      by_cases hc : a.value > m0 <;> simp [hc, le_of_lt, le_refl]
    have hm1a : a.value ≤ (if a.value > m0 then a.value else m0) := by
      by_cases hc : a.value > m0 <;> simp [hc, le_refl]
      exact le_of_not_lt hc
    refine ⟨?_, ?_, ?_⟩
    · rcases hmem with h | h
      · rw [List.foldl_cons, h]
        by_cases hc : a.value > m0
        · right; simp [hc]
        · left; simp [hc]
      · right
        rw [List.map_cons]
        exact List.mem_cons_of_mem _ (by rw [List.foldl_cons]; exact h)
    · rw [List.foldl_cons]; exact le_trans hm1 hle
    · intro s hs
      rcases List.mem_cons.mp hs with rfl | hs
      · rw [List.foldl_cons]; exact le_trans hm1a hle
      · rw [List.foldl_cons]; exact hall s hs

/-- Claim C4: `aggregateSamples` on a non-empty segment computes the sum
for `sum`, the arithmetic mean for `avg`, the least sample value for
`min`, the greatest for `max`, the sample count for `count`, and falls
back to the sum for every operator outside the enumerated set. -/
theorem c4_aggregate_samples_spec (l : List MetricSample) (h : l ≠ []) :
    aggregateSamples l "sum" = (l.map fun s => s.value).sum ∧
    aggregateSamples l "avg" = (l.map fun s => s.value).sum / (l.length : ℚ) ∧
    (aggregateSamples l "min" ∈ l.map (fun s => s.value) ∧
      ∀ v ∈ l.map fun s => s.value, aggregateSamples l "min" ≤ v) ∧
    (aggregateSamples l "max" ∈ l.map (fun s => s.value) ∧
      ∀ v ∈ l.map fun s => s.value, v ≤ aggregateSamples l "max") ∧
    aggregateSamples l "count" = (l.length : ℚ) ∧
    ∀ op : String, op ∉ (["sum", "avg", "min", "max", "count"] : List String) →
      aggregateSamples l op = (l.map fun s => s.value).sum := by
  obtain ⟨s0, t, rfl⟩ := List.exists_cons_of_ne_nil h
  refine ⟨?_, ?_, ?_, ?_, ?_, ?_⟩
  · show aggregateSamples (s0 :: t) "sum" = _
    simp only [aggregateSamples]
    rw [if_pos trivial, foldl_add_value, zero_add]
  · show aggregateSamples (s0 :: t) "avg" = _
    simp only [aggregateSamples]
    rw [if_pos trivial, foldl_add_value, zero_add]
    simp
  · have hspec := foldl_min_spec (s0 :: t) s0.value
    have heq : aggregateSamples (s0 :: t) "min" =
        (s0 :: t).foldl (fun m s => if s.value < m then s.value else m) s0.value := by
      simp only [aggregateSamples]
      rw [if_pos trivial]
      simp
    constructor
    · rcases hspec.1 with h1 | h1
      · rw [heq, h1]; simp
      · rw [heq]; exact h1
    · intro v hv
      rcases List.mem_map.mp hv with ⟨s, hs, rfl⟩
      rw [heq]; exact hspec.2.2 s hs
  · have hspec := foldl_max_spec (s0 :: t) s0.value
    have heq : aggregateSamples (s0 :: t) "max" =
        (s0 :: t).foldl (fun m s => if s.value > m then s.value else m) s0.value := by
      simp only [aggregateSamples]
      rw [if_pos trivial]
      simp
    constructor
    · rcases hspec.1 with h1 | h1
      · rw [heq, h1]; simp
      · rw [heq]; exact h1
    · intro v hv
      rcases List.mem_map.mp hv with ⟨s, hs, rfl⟩
      rw [heq]; exact hspec.2.2 s hs
  · show aggregateSamples (s0 :: t) "count" = _
    simp only [aggregateSamples]
    rw [if_pos trivial]
    simp
  · intro op hop
    simp only [List.mem_cons, List.mem_singleton] at hop
    push_neg at hop
    obtain ⟨h1, h2, h3, h4, h5, -⟩ := hop
    show aggregateSamples (s0 :: t) op = _
    simp only [aggregateSamples]
    rw [if_neg h1, if_neg h2, if_neg h3, if_neg h4, if_neg h5, foldl_add_value,
      zero_add]

/-- Claim C4 witness: the specification evaluated on three concrete
samples with values 3, 5 and 2. -/
theorem c4_aggregate_samples_spec_witness :
    c4samples ≠ [] ∧
    aggregateSamples c4samples "sum" = (c4samples.map fun s => s.value).sum ∧
    aggregateSamples c4samples "count" = (c4samples.length : ℚ) :=
  ⟨by decide, (c4_aggregate_samples_spec c4samples (by decide)).1,
    (c4_aggregate_samples_spec c4samples (by decide)).2.2.2.2.1⟩

theorem amendedPatternMatches_of_eq_or_star {p name : String}
    (h : p = name ∨ p = "*") : amendedPatternMatches p name = true := by
  unfold amendedPatternMatches
  rcases h with rfl | rfl
  · by_cases h1 : p = "*"
    · simp [h1]
    · simp [h1]
  · simp

theorem nameMatched_ok (name : String) (ps : List String)
    (hc : ∀ p ∈ ps, p.toList.contains '*' = true →
      (compile (globToRegex p)).isSome = true) :
    nameMatched ps name = some (ps.any fun p => amendedPatternMatches p name) := by
  induction ps with
  | nil => simp [nameMatched]
  | cons p ps ih =>
    have ihp := ih fun q hq h => hc q (List.mem_cons_of_mem _ hq) h
    by_cases h1 : p = name ∨ p = "*"
    · simp [nameMatched, h1, List.any_cons, amendedPatternMatches_of_eq_or_star h1]
    · push_neg at h1
      obtain ⟨hn, hs⟩ := h1
      by_cases h2 : p.toList.contains '*' = true
      · obtain ⟨re, hre⟩ := Option.isSome_iff_exists.mp
          (hc p (List.mem_cons_self p ps) h2)
        have hmain : nameMatched (p :: ps) name =
            (if rmatch re name then some true else nameMatched ps name) := by
          simp only [nameMatched]
          rw [if_neg (by tauto), if_pos h2, hre]
        have hamend : amendedPatternMatches p name = rmatch re name := by
          unfold amendedPatternMatches
          rw [if_neg hs, if_pos h2, hre]
          simp [hn]
        cases hr : rmatch re name
        · rw [hmain, if_neg (by simp [hr]), ihp]
          simp [List.any_cons, hamend, hr]
        · rw [hmain, if_pos (by simp [hr])]
          simp [List.any_cons, hamend, hr]
      · have h2' : p.toList.contains '*' = false := by
          cases hcc : p.toList.contains '*'
          · rfl
          · exact absurd hcc h2
        have hmain : nameMatched (p :: ps) name = nameMatched ps name := by
          simp only [nameMatched]
          rw [if_neg (by tauto), if_neg h2]
        have hamend : amendedPatternMatches p name = false := by
          unfold amendedPatternMatches
          rw [if_neg hs, if_neg h2]
          simp [hn]
        rw [hmain, ihp]
        simp [List.any_cons, hamend]

theorem labelRegexMatch_ok (ls : Labels) (reqs : List (String × String))
    (hc : ∀ kv ∈ reqs, (compile kv.2).isSome = true) :
    labelRegexMatch reqs ls = some (specLabelRegexClause reqs ls) := by
  induction reqs with
  | nil => simp [labelRegexMatch, specLabelRegexClause]
  | cons kv rest ih =>
    obtain ⟨k, reStr⟩ := kv
    have ihp := ih fun q hq => hc q (List.mem_cons_of_mem _ hq)
    cases hl : ls.lookup k with
    | none => simp [labelRegexMatch, specLabelRegexClause, List.all_cons, hl]
    | some v =>
      obtain ⟨re, hre⟩ := Option.isSome_iff_exists.mp
        (hc (k, reStr) (List.mem_cons_self _ _))
      cases hr : rmatch re v
      · simp [labelRegexMatch, specLabelRegexClause, List.all_cons, hl, hre, hr]
      · simp [labelRegexMatch, specLabelRegexClause, List.all_cons, hl, hre, hr, ihp]

theorem matchesRule_ok (s : MetricSample) (r : Rule) (h : ruleCompileOk r) :
    matchesRule s r = some (matchesRuleBool s r) := by
  unfold matchesRule matchesRuleBool
  rw [nameMatched_ok s.name r.matcher.metricNames h.1]
  cases hn : r.matcher.metricNames.any fun p => amendedPatternMatches p s.name
  · simp [hn]
  · have hsl : labelsMatch r.matcher.labels s.labels =
        specLabelClause r.matcher.labels s.labels := rfl
    cases hl : specLabelClause r.matcher.labels s.labels
    · simp [hsl, hl]
    · simp [hsl, hl, labelRegexMatch_ok s.labels r.matcher.labelRegex h.2]

theorem MatchingRules_ok (s : MetricSample) (rules : List Rule)
    (hc : ∀ r' ∈ rules, ruleCompileOk r') :
    MatchingRules rules s =
      some (rules.filter fun r' => r'.enabled && matchesRuleBool s r') := by
  induction rules with
  | nil => simp [MatchingRules]
  | cons r rest ih =>
    have ihp := ih fun q hq => hc q (List.mem_cons_of_mem _ hq)
    have hr := matchesRule_ok s r (hc r (List.mem_cons_self _ _))
    cases he : r.enabled
    · simp [MatchingRules, he, ihp, List.filter_cons]
    · cases hm : matchesRuleBool s r
      · simp [MatchingRules, he, hr, hm, ihp, List.filter_cons]
      · simp [MatchingRules, he, hr, hm, ihp, List.filter_cons]

/-- Claim C3 (amended): for every rule held by the engine, assuming every
regex any rule makes the matcher compile does compile, `MatchingRules`
returns normally, and the rule is in the result iff it is enabled and the
three predicate clauses hold — with name clause amended to the code's
behaviour: a pattern containing `*` matches when it equals the name
exactly, or when the anchored `*`→`.*` regex matches. -/
theorem c3_matching_rules_iff (rules : List Rule) (s : MetricSample) (r : Rule)
    (hr : r ∈ rules) (hc : ∀ r' ∈ rules, ruleCompileOk r') :
    (MatchingRules rules s).isSome = true ∧
      (r ∈ (MatchingRules rules s).getD [] ↔
        (r.enabled = true ∧
          (r.matcher.metricNames.any fun p => amendedPatternMatches p s.name) = true ∧
          specLabelClause r.matcher.labels s.labels = true ∧
          specLabelRegexClause r.matcher.labelRegex s.labels = true)) := by
  rw [MatchingRules_ok s rules hc]
  refine ⟨rfl, ?_⟩
  simp only [Option.getD_some]
  constructor
  · intro hmem
    obtain ⟨-, hpred⟩ := List.mem_filter.mp hmem
    simp only [matchesRuleBool, Bool.and_eq_true] at hpred
    exact ⟨hpred.1, hpred.2.1.1, hpred.2.1.2, hpred.2.2⟩
  · rintro ⟨he, h1, h2, h3⟩
    exact List.mem_filter.mpr ⟨hr, by simp [matchesRuleBool, he, h1, h2, h3]⟩

/-- Claim C3 witness: the amended iff evaluated on a concrete engine with
one rule (glob name `http_*`, label `method=GET`, label regex
`path ~ ^/api/.*`) and a sample matching all three clauses. -/
theorem c3_matching_rules_iff_witness :
    (MatchingRules [c3rule] c3sample).isSome = true ∧
      (c3rule ∈ (MatchingRules [c3rule] c3sample).getD [] ↔
        (c3rule.enabled = true ∧
          (c3rule.matcher.metricNames.any fun p =>
              amendedPatternMatches p c3sample.name) = true ∧
          specLabelClause c3rule.matcher.labels c3sample.labels = true ∧
          specLabelRegexClause c3rule.matcher.labelRegex c3sample.labels = true)) :=
  c3_matching_rules_iff [c3rule] c3sample c3rule (by decide) (by decide)

/-- Claim C3 counterexample (the claim as stated): for the enabled rule
whose only name pattern is `[*]z` and the sample named `[*]z`, the matcher
admits the rule (string equality is checked first), yet the claim's clause
(1) is false — the anchored regex `^[.*]z$` does not match `[*]z` — so the
claimed iff fails at this input. -/
theorem c3_counterexample :
    MatchingRules [c3xrule] c3xsample = some [c3xrule] ∧
    (c3xrule.matcher.metricNames.any fun p =>
        claimPatternMatches p c3xsample.name) = false ∧
    ¬(c3xrule ∈ ([c3xrule] : List Rule) ↔
        (c3xrule.enabled = true ∧
          (c3xrule.matcher.metricNames.any fun p =>
              claimPatternMatches p c3xsample.name) = true ∧
          specLabelClause c3xrule.matcher.labels c3xsample.labels = true ∧
          specLabelRegexClause c3xrule.matcher.labelRegex c3xsample.labels = true)) := by
  exact ⟨by decide, by decide, by decide⟩

/-- Claim C9 (amended): every recommendation is generated with status
`pending`; for a stored id, `ApplyRecommendation` sets the status to
`"applied"` and `RejectRecommendation` to `"rejected"` — unconditionally,
whatever the current status, so the transitions are last-write-wins rather
than monotonic (see `c9_counterexample` for rejected → applied). -/
theorem c9_status_transitions :
    (∀ (re : RecommendationEngine) (info : MetricUsageInfo)
        (ruleId recId : String) (rec : Recommendation),
        generateRecommendationForMetric re info ruleId recId = some rec →
        rec.status = "pending") ∧
    (∀ (store : RecommendationStore) (rules : List Rule) (id : String)
        (rec : Recommendation), store.lookup id = some rec →
        ((ApplyRecommendation store rules id).1.lookup id =
            some { rec with status := "applied" } ∧
          (RejectRecommendation store id).lookup id =
            some { rec with status := "rejected" })) := by
  constructor
  · intro re info ruleId recId rec h
    simp only [generateRecommendationForMetric] at h
    split at h
    · exact Option.noConfusion h
    · split at h
      · exact Option.noConfusion h
      · split at h
        · exact Option.noConfusion h
        · injection h with h2
          rw [← h2]
  · intro store rules id rec h
    constructor
    · simp only [ApplyRecommendation, h]
      exact lookup_setL_self id _ store
    · simp only [RejectRecommendation, h]
      exact lookup_setL_self id _ store

/-- Claim C9 witness: a concrete generated recommendation (status
`pending`) and a concrete store on which apply and reject set the status
fields accordingly. -/
theorem c9_status_transitions_witness :
    generateRecommendationForMetric c9engine c9info "rid" "cid" = some c9genRec ∧
    c9genRec.status = "pending" ∧
    c9store.lookup "R" = some c9rec ∧
    (ApplyRecommendation c9store [] "R").1.lookup "R" =
      some { c9rec with status := "applied" } ∧
    (RejectRecommendation c9store "R").lookup "R" =
      some { c9rec with status := "rejected" } := by
  have hgen : generateRecommendationForMetric c9engine c9info "rid" "cid" =
      some c9genRec := by
    have hba : (("b" == "a") : Bool) = false := by decide
    have happ : ("mm" ++ "_aggregated" : String) = "mm_aggregated" := by decide
    norm_num [generateRecommendationForMetric, determineSegmentationLabels,
      determineAggregationType, estimateImpact, calculateConfidence, minFloat,
      determineAggregationInterval, c9engine, c9info, c9genRec,
      List.insertionSort, List.orderedInsert, lookupD, List.lookup, hba, happ]
    exact fun h => absurd h (by decide)
  have hlook : c9store.lookup "R" = some c9rec := by decide
  exact ⟨hgen,
    c9_status_transitions.1 c9engine c9info "rid" "cid" c9genRec hgen,
    hlook,
    (c9_status_transitions.2 c9store [] "R" c9rec hlook).1,
    (c9_status_transitions.2 c9store [] "R" c9rec hlook).2⟩
